import Mathlib

/-!
Verification of the distributed rate limiter (Go + Redis Lua).

The server-side Lua scripts (`tokenbucket.lua`, `tokenbucket_dual.lua`)
are embedded as pure functions over exact rationals (Lua numbers are
IEEE doubles; the refill arithmetic is modelled exactly over `ℚ`), with
timestamps as integer milliseconds.  The Go adapter (`redis.go`), the
rule catalog (`config/rules.go`) and the dispatch layer (`handler.go`)
are embedded as total functions over explicit inputs, reproducing the
Go control flow — including its variable-shadowing and nil-assertion
behaviour — statement for statement.
-/

namespace RateLimiter

/-- Stored bucket state: the fields the scripts read back from Redis.
The stored `capacity`/`refill_rate` fields are ignored by the scripts
(call-time arguments win), so they are not modelled. -/
structure BucketState where
  tokens : ℚ
  last_refill : ℤ
  deriving DecidableEq, Repr

/-- `tokenbucket.lua` lines 10-16: an absent key starts with
`tokens = capacity`, `last_refill = now`. -/
def initState (capacity : ℚ) (now : ℤ) : BucketState :=
  { tokens := capacity, last_refill := now }

/-- `tokenbucket.lua` lines 19-26 (and the two mirrored blocks of the
dual script): lazy refill.  Only runs when `tokens < capacity`; adds
`(now - last_refill)/1000 * refill_rate` clamped at `capacity`, and
advances `last_refill` to `now`, but only when the amount to add is
strictly positive. -/
def refill (capacity refill_rate : ℚ) (now : ℤ) (st : BucketState) : BucketState :=
  if st.tokens < capacity then
    let delta : ℚ := ((now : ℚ) - (st.last_refill : ℚ)) / 1000
    let tokens_to_add := delta * refill_rate
    if 0 < tokens_to_add then
      { tokens := min capacity (st.tokens + tokens_to_add), last_refill := now }
    else st
  else st

/-- Result of one single-bucket script execution: the returned pair
`[allowed, floor(tokens)]` plus the state written back with `SET`. -/
structure SingleResult where
  allowed : Bool
  remaining : ℤ
  newState : BucketState
  deriving DecidableEq, Repr

/-- The whole of `tokenbucket.lua`: read-or-init, refill, cost check and
debit, write back, return `[allowed and 1 or 0, math.floor(tokens)]`. -/
def singleBucketScript (capacity refill_rate cost : ℚ) (now : ℤ)
    (stored : Option BucketState) : SingleResult :=
  let st := refill capacity refill_rate now (stored.getD (initState capacity now))
  if cost ≤ st.tokens then
    { allowed := true
      remaining := ⌊st.tokens - cost⌋
      newState := { st with tokens := st.tokens - cost } }
  else
    { allowed := false
      remaining := ⌊st.tokens⌋
      newState := st }

/-- Result of one dual-bucket script execution: the returned triple
`[allowed, floor(user_tokens), floor(global_tokens)]` plus both states
written back. -/
structure DualResult where
  allowed : Bool
  userRemaining : ℤ
  globalRemaining : ℤ
  userState : BucketState
  globalState : BucketState
  deriving DecidableEq, Repr

/-- The whole of `tokenbucket_dual.lua`.  Argument order follows the
script: `ARGV = [global_capacity, global_refill_rate, user_capacity,
user_refill_rate, cost, now, ttl]`.  Both buckets are refilled; the
request is allowed iff `cost ≤ user_tokens and cost ≤ global_tokens`,
in which case both are debited by `cost`. -/
def dualBucketScript (global_capacity global_refill_rate user_capacity user_refill_rate
    cost : ℚ) (now : ℤ)
    (userStored globalStored : Option BucketState) : DualResult :=
  let u := refill user_capacity user_refill_rate now
    (userStored.getD (initState user_capacity now))
  let g := refill global_capacity global_refill_rate now
    (globalStored.getD (initState global_capacity now))
  if cost ≤ u.tokens ∧ cost ≤ g.tokens then
    { allowed := true
      userRemaining := ⌊u.tokens - cost⌋
      globalRemaining := ⌊g.tokens - cost⌋
      userState := { u with tokens := u.tokens - cost }
      globalState := { g with tokens := g.tokens - cost } }
  else
    { allowed := false
      userRemaining := ⌊u.tokens⌋
      globalRemaining := ⌊g.tokens⌋
      userState := u
      globalState := g }

/-! ### Storage adapter (`internal/storage/redis.go`) -/

/-- Errors the Redis client can produce.  The Go code distinguishes only
whether `err.Error()` contains "NOSCRIPT". -/
inductive RedisErr where
  | noscript
  | connFailure
  | other (tag : String)
  deriving DecidableEq, Repr

/-- `strings.Contains(err.Error(), "NOSCRIPT")` guarded by `err != nil`. -/
def isNoscript : Option RedisErr → Bool
  | some .noscript => true
  | _ => false

/-- The cached entry of the script registry (`ScriptInfo` in Go);
`Name`/`LoadedAt` play no role in the claims. -/
structure ScriptInfo where
  sha : String
  content : String
  deriving DecidableEq, Repr

/-- Behaviour of the Redis client during one `ExecuteScript` call:
what `EvalSha` replies for each digest (a value and/or an error), and
what `ScriptLoad` replies for the cached content. -/
structure RedisClient where
  evalSha : String → Option (List ℤ) × Option RedisErr
  scriptLoad : String → String ⊕ RedisErr

/-- What one `ExecuteScript` call returns, together with the digest left
in the registry cache afterwards. -/
structure ExecOutcome where
  result : Option (List ℤ)
  err : Option RedisErr
  cacheSha : String
  deriving DecidableEq, Repr

/-- `ExecuteScript` (redis.go lines 76-98).  On a NOSCRIPT error it
reloads the cached content, updates the cached digest and retries once.
The Go retry writes its error into the `err` that was re-declared with
`:=` inside the `if` block; the function's final `return result, err`
reads the OUTER `err`, which still holds the NOSCRIPT error, so the
retried result is returned together with the original error. -/
def ExecuteScript (client : RedisClient) (script : ScriptInfo) : ExecOutcome :=
  let (result, err) := client.evalSha script.sha
  if isNoscript err then
    match client.scriptLoad script.content with
    | .inr loadErr => { result := none, err := some loadErr, cacheSha := script.sha }
    | .inl sha =>
      let (result2, _retryErr) := client.evalSha sha
      { result := result2, err := err, cacheSha := sha }
  else
    { result := result, err := err, cacheSha := script.sha }

/-- A Go runtime panic reachable from the decode code. -/
inductive GoPanic where
  | nilInterfaceConversion
  | indexOutOfRange
  deriving DecidableEq, Repr

/-- The decode step of `AtomicTokenBucket` (redis.go lines 100-109):
`values := result.([]interface\x7b\x7d)` runs BEFORE `err` is inspected, so a
`nil` result (as produced by a failed store call) panics; otherwise
`values[0]`/`values[1]` are read and the error, if any, is returned
alongside the decoded values. -/
def decodeSingleReply (result : Option (List ℤ)) (err : Option RedisErr) :
    Except GoPanic (Bool × ℤ × Option RedisErr) :=
  match result with
  | none => .error .nilInterfaceConversion
  | some values =>
    match values with
    | v0 :: v1 :: _ => .ok (v0 == 1, v1, err)
    | _ => .error .indexOutOfRange

/-- The decode step of `AtomicDualBucket` (redis.go lines 142-152),
same shape with a three-element reply. -/
def decodeDualReply (result : Option (List ℤ)) (err : Option RedisErr) :
    Except GoPanic (Bool × ℤ × ℤ × Option RedisErr) :=
  match result with
  | none => .error .nilInterfaceConversion
  | some values =>
    match values with
    | v0 :: v1 :: v2 :: _ => .ok (v0 == 1, v1, v2, err)
    | _ => .error .indexOutOfRange

/-- `AtomicTokenBucket` = `ExecuteScript` followed by the decode step. -/
def AtomicTokenBucket (client : RedisClient) (script : ScriptInfo) :
    Except GoPanic (Bool × ℤ × Option RedisErr) :=
  let out := ExecuteScript client script
  decodeSingleReply out.result out.err

/-- `AtomicDualBucket` = `ExecuteScript` followed by the decode step. -/
def AtomicDualBucket (client : RedisClient) (script : ScriptInfo) :
    Except GoPanic (Bool × ℤ × ℤ × Option RedisErr) :=
  let out := ExecuteScript client script
  decodeDualReply out.result out.err

/-- `bucketKey` (redis.go lines 162-164). -/
def bucketKey (key : String) : String := "rate_limit:bucket:" ++ key

/-- The KEYS array `AtomicDualBucket` passes to `ExecuteScript`. -/
def atomicDualBucketKeys (userKey globalKey : String) : List String :=
  [bucketKey userKey, bucketKey globalKey]

/-! ### Rule catalog (`config/rules.go`) -/

structure TierConfig where
  capacity : ℤ
  refillRate : ℤ
  deriving DecidableEq, Repr

structure EndpointConfig where
  rule : String
  cost : ℤ
  globalCapacity : ℤ
  globalRefillRate : ℤ
  deriving DecidableEq, Repr

structure IPConfig where
  capacity : ℤ
  refillRate : ℤ
  deriving DecidableEq, Repr

/-- The parsed policy document.  Go maps become association lists; the
Go map iteration order is immaterial to the claims settled here (only
whether validation fails, not which message it picks). -/
structure RuleSet where
  tiers : List (String × TierConfig)
  endpoints : List (String × EndpointConfig)
  ips : IPConfig
  deriving DecidableEq, Repr

/-- The tier loop of `ValidateRuleSet`. -/
def validateTiers : List (String × TierConfig) → Option String
  | [] => none
  | (name, tier) :: rest =>
    if tier.capacity ≤ 0 then some ("tier " ++ name ++ ": capacity must be positive")
    else if tier.refillRate ≤ 0 then some ("tier " ++ name ++ ": refill_rate must be positive")
    else validateTiers rest

/-- Membership in the `validRules` set of `ValidateRuleSet`. -/
def validRule (r : String) : Bool :=
  r == "tiers+endpoints" || r == "IP+endpoints" || r == "endpoint"

/-- The endpoint loop of `ValidateRuleSet`. -/
def validateEndpoints : List (String × EndpointConfig) → Option String
  | [] => none
  | (path, ep) :: rest =>
    if !validRule ep.rule then some ("endpoint " ++ path ++ ": unknown rule " ++ ep.rule)
    else if ep.cost ≤ 0 then some ("endpoint " ++ path ++ ": cost must be positive")
    else if ep.globalCapacity ≤ 0 then some ("endpoint " ++ path ++ ": global_capacity must be positive")
    else if ep.globalRefillRate ≤ 0 then some ("endpoint " ++ path ++ ": global_refill_rate must be positive")
    else validateEndpoints rest

/-- `ValidateRuleSet` (rules.go): `some msg` models a non-nil error. -/
def ValidateRuleSet (rs : RuleSet) : Option String :=
  match validateTiers rs.tiers with
  | some e => some e
  | none =>
    match validateEndpoints rs.endpoints with
    | some e => some e
    | none =>
      if rs.ips.capacity ≤ 0 then some "ip config: capacity must be positive"
      else if rs.ips.refillRate ≤ 0 then some "ip config: refill_rate must be positive"
      else none

/-- `LoadRuleSet` (rules.go) after a successful read and YAML
unmarshal (`parsed` stands for the unmarshalled document): the rule set
is returned as-is with no semantic validation, and `main`
(cmd/server) uses this result directly without calling
`ValidateRuleSet`. -/
def LoadRuleSet (parsed : RuleSet) : Except String RuleSet := .ok parsed

/-! ### Dispatch layer (`internal/api/handler.go`) -/

structure CheckRequest where
  key : String
  endpoint : String
  userTier : String
  ipAddress : String
  deriving DecidableEq, Repr

structure CheckResponse where
  allowed : Bool
  userRemaining : ℤ
  globalRemaining : ℤ
  deriving DecidableEq, Repr

/-- The JSON bodies `CheckHandler` can emit. -/
inductive Payload where
  | errMsg (msg : String)
  | errTier (msg provided : String) (validTiers : List String)
  | body (r : CheckResponse)
  deriving DecidableEq, Repr

structure HttpResponse where
  status : ℕ
  payload : Payload
  deriving DecidableEq, Repr

/-- `getValidTiers` (handler.go): the tier names of the catalog. -/
def getValidTiers (tiers : List (String × TierConfig)) : List String :=
  tiers.map Prod.fst

/-- Which storage call the handler makes, with the arguments passed
(ttl is recorded in seconds: the handler passes `time.Hour` and the
adapter forwards `int(ttl.Seconds()) = 3600`). -/
inductive StorageCall where
  | dual (userKey globalKey : String) (globalCap globalRate userCap userRate cost ttlSeconds : ℤ)
  | single (key : String) (cap rate cost ttlSeconds : ℤ)
  deriving DecidableEq, Repr

/-- The code after `CheckHandler`'s switch: a non-nil `err` yields 500;
otherwise the response body is built and `allowed` picks 429 or 200. -/
def finishDecision (allowed : Bool) (userRemaining globalRemaining : ℤ)
    (err : Option RedisErr) : HttpResponse :=
  match err with
  | some _ => { status := 500, payload := .errMsg "Rate limiter unavailable" }
  | none =>
    let resp : CheckResponse :=
      { allowed := allowed, userRemaining := userRemaining, globalRemaining := globalRemaining }
    if !resp.allowed then { status := 429, payload := .body resp }
    else { status := 200, payload := .body resp }

/-- `CheckHandler` (handler.go), after a successful JSON bind.  The two
storage methods are passed as oracles giving the tuples they return;
the second component records the storage call made, `none` when no
store call happens.  The `IP+endpoints` branch binds the caller-scoped
remainder to a fresh local `ipRemaining` in Go, so the response there
is built from the never-assigned outer `userRemaining = 0`; when no
switch case matches, the zero-valued locals flow straight to the
response with `err = nil`. -/
def CheckHandler (rules : RuleSet)
    (dualBucket : String → String → ℤ → ℤ → ℤ → ℤ → ℤ → ℤ → Bool × ℤ × ℤ × Option RedisErr)
    (singleBucket : String → ℤ → ℤ → ℤ → ℤ → Bool × ℤ × Option RedisErr)
    (req : CheckRequest) : HttpResponse × Option StorageCall :=
  match rules.endpoints.lookup req.endpoint with
  | none => ({ status := 400, payload := .errMsg "unknown endpoint" }, none)
  | some ep =>
    let rule := ep.rule
    let globalKey := "global:" ++ req.endpoint
    let cost := ep.cost
    let globalCapacity := ep.globalCapacity
    let globalRefillrate := ep.globalRefillRate
    if rule == "tiers+endpoints" then
      match rules.tiers.lookup req.userTier with
      | none =>
        ({ status := 400,
           payload := .errTier "invalid user_tier" req.userTier (getValidTiers rules.tiers) },
         none)
      | some tier =>
        let userKey := "user:" ++ req.key ++ ":" ++ req.endpoint ++ ":" ++ req.userTier
        let t :=
          dualBucket userKey globalKey globalCapacity globalRefillrate
            tier.capacity tier.refillRate cost 3600
        (finishDecision t.1 t.2.1 t.2.2.1 t.2.2.2,
         some (.dual userKey globalKey globalCapacity globalRefillrate
           tier.capacity tier.refillRate cost 3600))
    else if rule == "IP+endpoints" then
      if req.ipAddress == "" then
        ({ status := 400, payload := .errMsg "ip_address required for this endpoint" }, none)
      else
        let ipKey := "ip:" ++ req.ipAddress ++ ":" ++ req.endpoint
        let t :=
          dualBucket ipKey globalKey globalCapacity globalRefillrate
            rules.ips.capacity rules.ips.refillRate cost 3600
        (finishDecision t.1 0 t.2.2.1 t.2.2.2,
         some (.dual ipKey globalKey globalCapacity globalRefillrate
           rules.ips.capacity rules.ips.refillRate cost 3600))
    else if rule == "endpoint" then
      let endpointKey := "endpoint:" ++ req.endpoint
      let t := singleBucket endpointKey globalCapacity globalRefillrate cost 3600
      (finishDecision t.1 0 t.2.1 t.2.2,
       some (.single endpointKey globalCapacity globalRefillrate cost 3600))
    else
      (finishDecision false 0 0 none, none)

/-! ### Derived execution and test fixtures -/

/-- A sequence of single-bucket script executions on one key with fixed
capacity and rate: each step supplies its `(cost, now)` arguments, and
the state written back by one execution is the state the next one
reads. -/
def runScript (capacity refill_rate : ℚ) :
    List (ℚ × ℤ) → Option BucketState → List SingleResult
  | [], _ => []
  | (cost, now) :: rest, stored =>
    let r := singleBucketScript capacity refill_rate cost now stored
    r :: runScript capacity refill_rate rest (some r.newState)

/-- Client behaviour of a cold script cache: `EvalSha` answers NOSCRIPT
for the cached digest, `ScriptLoad` installs the script under a new
digest, and `EvalSha` on the new digest succeeds with `[1, 90]`. -/
def coldCacheClient : RedisClient where
  evalSha := fun sha => if sha == "sha-new" then (some [1, 90], none) else (none, some .noscript)
  scriptLoad := fun _ => .inl "sha-new"

/-- Client behaviour of a store whose connection is down: every call
returns a nil result with a connection error. -/
def failingClient : RedisClient where
  evalSha := fun _ => (none, some .connFailure)
  scriptLoad := fun _ => .inr .connFailure

/-- A policy document that violates the validation rules: the `free`
tier has capacity 0.  The other sections are well-formed. -/
def invalidCatalog : RuleSet where
  tiers := [("free", ⟨0, 10⟩)]
  endpoints := [("/api/test", ⟨"tiers+endpoints", 10, 1000, 100⟩)]
  ips := ⟨500, 50⟩

/-- The property named by the validation rules: some tier, endpoint or
IP-defaults entry has a non-positive capacity, refill rate or cost, or
an endpoint carries a rule outside the three known values. -/
def hasInvalidEntry (rs : RuleSet) : Prop :=
  (∃ p ∈ rs.tiers, p.2.capacity ≤ 0 ∨ p.2.refillRate ≤ 0) ∨
  (∃ p ∈ rs.endpoints, validRule p.2.rule = false ∨ p.2.cost ≤ 0 ∨
    p.2.globalCapacity ≤ 0 ∨ p.2.globalRefillRate ≤ 0) ∨
  rs.ips.capacity ≤ 0 ∨ rs.ips.refillRate ≤ 0

/-- The spec's literal policy: tier `free = (100, 10)`, endpoint
`/api/test = (tiers+endpoints, cost 10, global 1000/100)`, IP defaults
`(500, 50)`. -/
def specCatalog : RuleSet where
  tiers := [("free", ⟨100, 10⟩)]
  endpoints := [("/api/test", ⟨"tiers+endpoints", 10, 1000, 100⟩)]
  ips := ⟨500, 50⟩

/-- The spec catalog with the endpoint rule replaced by the unknown
string `bogus`. -/
def bogusCatalog : RuleSet where
  tiers := [("free", ⟨100, 10⟩)]
  endpoints := [("/api/test", ⟨"bogus", 10, 1000, 100⟩)]
  ips := ⟨500, 50⟩

/-- A dual-bucket storage oracle that returns the same tuple for every
call — used to quantify over the decision outcome the handler sees. -/
def constDual (a : Bool) (u g : ℤ) (e : Option RedisErr) :
    String → String → ℤ → ℤ → ℤ → ℤ → ℤ → ℤ → Bool × ℤ × ℤ × Option RedisErr :=
  fun _ _ _ _ _ _ _ _ => (a, u, g, e)

/-- A single-bucket storage oracle that returns the same tuple for
every call. -/
def constSingle (a : Bool) (g : ℤ) (e : Option RedisErr) :
    String → ℤ → ℤ → ℤ → ℤ → Bool × ℤ × Option RedisErr :=
  fun _ _ _ _ _ => (a, g, e)

/-! ### Lemmas about the refill step -/

/-- When the stored state is within bounds and the clock did not run
backwards, the refill step computes exactly
`min capacity (tokens + elapsed_seconds * rate)`. -/
lemma refill_tokens_eq_min (capacity rate : ℚ) (now : ℤ) (st : BucketState)
    (htok : st.tokens ≤ capacity) (hlr : st.last_refill ≤ now) (hrate : 0 ≤ rate) :
    (refill capacity rate now st).tokens =
      min capacity (st.tokens + ((now : ℚ) - (st.last_refill : ℚ)) / 1000 * rate) := by
  have hcast : (st.last_refill : ℚ) ≤ (now : ℚ) := by exact_mod_cast hlr
  have hdelta : 0 ≤ ((now : ℚ) - (st.last_refill : ℚ)) / 1000 := by
    apply div_nonneg _ (by norm_num)
    linarith
  have hadd : 0 ≤ ((now : ℚ) - (st.last_refill : ℚ)) / 1000 * rate := mul_nonneg hdelta hrate
  simp only [refill]
  split_ifs with h1 h2
  · rfl
  · have hz : ((now : ℚ) - (st.last_refill : ℚ)) / 1000 * rate = 0 :=
      le_antisymm (not_lt.mp h2) hadd
    rw [hz, add_zero, min_eq_right (le_of_lt h1)]
  · have heq : st.tokens = capacity := le_antisymm htok (not_lt.mp h1)
    rw [heq, eq_comm]
    exact min_eq_left (by linarith)

/-- With a non-negative refill rate, a `now` earlier than the stored
`last_refill` makes the refill step a no-op. -/
lemma refill_skew (capacity rate : ℚ) (now : ℤ) (st : BucketState)
    (h : now < st.last_refill) (hrate : 0 ≤ rate) :
    refill capacity rate now st = st := by
  have hcast : (now : ℚ) < (st.last_refill : ℚ) := by exact_mod_cast h
  have hdelta : ((now : ℚ) - (st.last_refill : ℚ)) / 1000 ≤ 0 := by
    apply div_nonpos_of_nonpos_of_nonneg _ (by norm_num)
    linarith
  have hadd : ((now : ℚ) - (st.last_refill : ℚ)) / 1000 * rate ≤ 0 :=
    mul_nonpos_of_nonpos_of_nonneg hdelta hrate
  simp only [refill]
  split_ifs with h1 h2
  · exact absurd h2 (not_lt.mpr hadd)
  · rfl
  · rfl

/-- With a non-negative refill rate, `last_refill` never moves backwards
in one refill step. -/
lemma refill_last_refill_mono (capacity rate : ℚ) (now : ℤ) (st : BucketState)
    (hrate : 0 ≤ rate) : st.last_refill ≤ (refill capacity rate now st).last_refill := by
  simp only [refill]
  split_ifs with h1 h2
  · show st.last_refill ≤ now
    by_contra hlt
    push_neg at hlt
    have hcast : (now : ℚ) < (st.last_refill : ℚ) := by exact_mod_cast hlt
    have hdelta : ((now : ℚ) - (st.last_refill : ℚ)) / 1000 ≤ 0 := by
      apply div_nonpos_of_nonpos_of_nonneg _ (by norm_num)
      linarith
    exact absurd h2 (not_lt.mpr (mul_nonpos_of_nonpos_of_nonneg hdelta hrate))
  · exact le_refl _
  · exact le_refl _

/-- The refill step keeps `tokens` within `[0, capacity]`. -/
lemma refill_tokens_bounds (capacity rate : ℚ) (now : ℤ) (st : BucketState)
    (h0 : 0 ≤ st.tokens) (h1 : st.tokens ≤ capacity) :
    0 ≤ (refill capacity rate now st).tokens ∧
      (refill capacity rate now st).tokens ≤ capacity := by
  simp only [refill]
  split_ifs with ha hb
  · exact ⟨le_min (le_trans h0 h1) (by linarith), min_le_left _ _⟩
  · exact ⟨h0, h1⟩
  · exact ⟨h0, h1⟩

/-- The returned `remaining` is the floor of the written-back tokens. -/
lemma singleBucketScript_remaining_eq (capacity rate cost : ℚ) (now : ℤ)
    (stored : Option BucketState) :
    (singleBucketScript capacity rate cost now stored).remaining =
      ⌊(singleBucketScript capacity rate cost now stored).newState.tokens⌋ := by
  simp only [singleBucketScript]
  split_ifs <;> rfl

/-- One script execution keeps the stored tokens within `[0, capacity]`. -/
lemma singleBucketScript_state_bounds (capacity rate cost : ℚ) (now : ℤ)
    (stored : Option BucketState) (hcap : 0 ≤ capacity) (hcost : 0 ≤ cost)
    (hst : ∀ st, stored = some st → 0 ≤ st.tokens ∧ st.tokens ≤ capacity) :
    0 ≤ (singleBucketScript capacity rate cost now stored).newState.tokens ∧
      (singleBucketScript capacity rate cost now stored).newState.tokens ≤ capacity := by
  have hbase : 0 ≤ (stored.getD (initState capacity now)).tokens ∧
      (stored.getD (initState capacity now)).tokens ≤ capacity := by
    cases stored with
    | none => exact ⟨hcap, le_refl capacity⟩
    | some st => simpa using hst st rfl
  have hr := refill_tokens_bounds capacity rate now
    (stored.getD (initState capacity now)) hbase.1 hbase.2
  simp only [singleBucketScript]
  split_ifs with h
  · refine ⟨?_, ?_⟩
    · dsimp only
      linarith
    · dsimp only
      linarith [hr.2, hcost]
  · dsimp only
    exact hr

/-! ### Claim theorems about the Lua scripts -/

/-- C1: in the dual-bucket script the request is allowed exactly when
both the caller/IP bucket and the global bucket hold `tokens ≥ cost`
after their refill step; on allow both buckets are debited by exactly
`cost` (their refreshed `last_refill` untouched), and on deny both
post-refill states are written back unchanged. -/
theorem dualBucket_allow_iff_and_exact_debit
    (gcap grate ucap urate cost : ℚ) (now : ℤ)
    (userStored globalStored : Option BucketState) :
    ((dualBucketScript gcap grate ucap urate cost now userStored globalStored).allowed = true ↔
      (cost ≤ (refill ucap urate now (userStored.getD (initState ucap now))).tokens ∧
       cost ≤ (refill gcap grate now (globalStored.getD (initState gcap now))).tokens)) ∧
    ((dualBucketScript gcap grate ucap urate cost now userStored globalStored).allowed = true →
      (dualBucketScript gcap grate ucap urate cost now userStored globalStored).userState =
        { tokens := (refill ucap urate now (userStored.getD (initState ucap now))).tokens - cost,
          last_refill := (refill ucap urate now (userStored.getD (initState ucap now))).last_refill } ∧
      (dualBucketScript gcap grate ucap urate cost now userStored globalStored).globalState =
        { tokens := (refill gcap grate now (globalStored.getD (initState gcap now))).tokens - cost,
          last_refill := (refill gcap grate now (globalStored.getD (initState gcap now))).last_refill }) ∧
    ((dualBucketScript gcap grate ucap urate cost now userStored globalStored).allowed = false →
      (dualBucketScript gcap grate ucap urate cost now userStored globalStored).userState =
        refill ucap urate now (userStored.getD (initState ucap now)) ∧
      (dualBucketScript gcap grate ucap urate cost now userStored globalStored).globalState =
        refill gcap grate now (globalStored.getD (initState gcap now))) := by
  simp only [dualBucketScript]
  split_ifs with h
  · exact ⟨by simpa using h, fun _ => ⟨rfl, rfl⟩, fun hfalse => by simp at hfalse⟩
  · exact ⟨by simpa using h, fun htrue => by simp at htrue, fun _ => ⟨rfl, rfl⟩⟩

/-- Witness for C1 at concrete inputs: absent buckets with
`globalCap = 10`, `userCap = 100`, rates `0`, `cost = 10` allow the
request and leave 0 and 90 tokens. -/
theorem dualBucket_allow_iff_and_exact_debit_witness :
    (dualBucketScript 10 0 100 0 10 0 none none).allowed = true ∧
    (dualBucketScript 10 0 100 0 10 0 none none).userState.tokens = 90 ∧
    (dualBucketScript 10 0 100 0 10 0 none none).globalState.tokens = 0 := by
  have h := dualBucket_allow_iff_and_exact_debit 10 0 100 0 10 0 none none
  have hallow : (dualBucketScript 10 0 100 0 10 0 none none).allowed = true := by
    rw [h.1]
    constructor <;> norm_num [refill, initState]
  refine ⟨hallow, ?_, ?_⟩
  · rw [(h.2.1 hallow).1]
    norm_num [refill, initState]
  · rw [(h.2.1 hallow).2]
    norm_num [refill, initState]

/-- C2: on a stored bucket within bounds, with a non-negative rate and
no clock regression, the decision is allowed exactly when
`cost ≤ min(capacity, prev_tokens + elapsed*rate)`, and the written-back
tokens are that refilled value minus `cost` on allow, or unchanged by
cost on deny. -/
theorem singleBucket_refill_debit_postcondition (capacity rate cost : ℚ) (now : ℤ)
    (st : BucketState) (htok : st.tokens ≤ capacity) (hlr : st.last_refill ≤ now)
    (hrate : 0 ≤ rate) :
    ((singleBucketScript capacity rate cost now (some st)).allowed = true ↔
      cost ≤ min capacity (st.tokens + ((now : ℚ) - (st.last_refill : ℚ)) / 1000 * rate)) ∧
    (singleBucketScript capacity rate cost now (some st)).newState.tokens =
      (if cost ≤ min capacity (st.tokens + ((now : ℚ) - (st.last_refill : ℚ)) / 1000 * rate)
       then min capacity (st.tokens + ((now : ℚ) - (st.last_refill : ℚ)) / 1000 * rate) - cost
       else min capacity (st.tokens + ((now : ℚ) - (st.last_refill : ℚ)) / 1000 * rate)) := by
  have hr := refill_tokens_eq_min capacity rate now st htok hlr hrate
  simp only [singleBucketScript, Option.getD_some]
  rw [hr]
  constructor
  · split_ifs with h <;> simp [h]
  · split_ifs with h
    · dsimp only
    · exact hr

/-- Witness for C2: bucket at 0 tokens, `last_refill = 0`, queried at
`now = 2000` ms with capacity 100, rate 10, cost 10: the refill yields
20 tokens, the request is allowed and 10 tokens are left. -/
theorem singleBucket_refill_debit_postcondition_witness :
    ((⟨0, 0⟩ : BucketState).tokens ≤ 100 ∧ (⟨0, 0⟩ : BucketState).last_refill ≤ 2000 ∧
      (0 : ℚ) ≤ 10) ∧
    ((singleBucketScript 100 10 10 2000 (some ⟨0, 0⟩)).allowed = true ↔
      (10 : ℚ) ≤ min 100 ((⟨0, 0⟩ : BucketState).tokens +
        ((2000 : ℚ) - ((⟨0, 0⟩ : BucketState).last_refill : ℚ)) / 1000 * 10)) ∧
    (singleBucketScript 100 10 10 2000 (some ⟨0, 0⟩)).newState.tokens =
      (if (10 : ℚ) ≤ min 100 ((⟨0, 0⟩ : BucketState).tokens +
          ((2000 : ℚ) - ((⟨0, 0⟩ : BucketState).last_refill : ℚ)) / 1000 * 10)
       then min 100 ((⟨0, 0⟩ : BucketState).tokens +
          ((2000 : ℚ) - ((⟨0, 0⟩ : BucketState).last_refill : ℚ)) / 1000 * 10) - 10
       else min 100 ((⟨0, 0⟩ : BucketState).tokens +
          ((2000 : ℚ) - ((⟨0, 0⟩ : BucketState).last_refill : ℚ)) / 1000 * 10)) :=
  ⟨⟨by norm_num, by norm_num, by norm_num⟩,
    singleBucket_refill_debit_postcondition 100 10 10 2000 ⟨0, 0⟩
      (by norm_num) (by norm_num) (by norm_num)⟩

/-- C9: with a non-negative rate, a decision whose `now` is earlier than
the stored `last_refill` adds no tokens, leaves `last_refill` in place
and decides on the existing token count; and in every case the
written-back `last_refill` is not smaller than the stored one. -/
theorem singleBucket_clock_skew_noop_and_monotone (capacity rate cost : ℚ) (now : ℤ)
    (st : BucketState) (hrate : 0 ≤ rate) :
    (now < st.last_refill →
      (singleBucketScript capacity rate cost now (some st)).newState.last_refill =
          st.last_refill ∧
      ((singleBucketScript capacity rate cost now (some st)).allowed = true ↔
          cost ≤ st.tokens) ∧
      (singleBucketScript capacity rate cost now (some st)).newState.tokens =
        (if cost ≤ st.tokens then st.tokens - cost else st.tokens)) ∧
    st.last_refill ≤ (singleBucketScript capacity rate cost now (some st)).newState.last_refill := by
  constructor
  · intro hskew
    have hre := refill_skew capacity rate now st hskew hrate
    simp only [singleBucketScript, Option.getD_some, hre]
    refine ⟨?_, ?_, ?_⟩
    · split_ifs <;> rfl
    · split_ifs with h <;> simp [h]
    · split_ifs <;> rfl
  · have hmono := refill_last_refill_mono capacity rate now st hrate
    simp only [singleBucketScript, Option.getD_some]
    split_ifs
    · exact hmono
    · exact hmono

/-- Witness for C9: stored state `(tokens = 5, last_refill = 1000)`
queried at `now = 500` with rate 10: the rate is non-negative and
`now` is earlier than the stored `last_refill`; the decision denies on
the existing 5 tokens and keeps `last_refill = 1000`. -/
theorem singleBucket_clock_skew_noop_and_monotone_witness :
    ((0 : ℚ) ≤ 10 ∧ (500 : ℤ) < (⟨5, 1000⟩ : BucketState).last_refill) ∧
    (singleBucketScript 100 10 10 500 (some ⟨5, 1000⟩)).newState.last_refill =
        (⟨5, 1000⟩ : BucketState).last_refill ∧
    ((singleBucketScript 100 10 10 500 (some ⟨5, 1000⟩)).allowed = true ↔
        (10 : ℚ) ≤ (⟨5, 1000⟩ : BucketState).tokens) ∧
    (singleBucketScript 100 10 10 500 (some ⟨5, 1000⟩)).newState.tokens =
      (if (10 : ℚ) ≤ (⟨5, 1000⟩ : BucketState).tokens
       then (⟨5, 1000⟩ : BucketState).tokens - 10 else (⟨5, 1000⟩ : BucketState).tokens) :=
  ⟨⟨by norm_num, by norm_num⟩,
    (singleBucket_clock_skew_noop_and_monotone 100 10 10 500 ⟨5, 1000⟩ (by norm_num)).1
      (by norm_num)⟩

/-- Every execution in a run started from a within-bounds (or absent)
state keeps both the written-back tokens and the returned remainder in
`[0, capacity]`. -/
lemma runScript_mem_bounds (capacity rate : ℚ) (hcap : 0 ≤ capacity)
    (steps : List (ℚ × ℤ)) :
    ∀ (stored : Option BucketState),
      (∀ p ∈ steps, 0 ≤ p.1) →
      (∀ st, stored = some st → 0 ≤ st.tokens ∧ st.tokens ≤ capacity) →
      ∀ r ∈ runScript capacity rate steps stored,
        (0 ≤ r.newState.tokens ∧ r.newState.tokens ≤ capacity) ∧
        (0 ≤ r.remaining ∧ (r.remaining : ℚ) ≤ capacity) := by
  induction steps with
  | nil =>
    intro stored _ _ r hr
    simp [runScript] at hr
  | cons p rest ih =>
    intro stored hcost hst r hr
    obtain ⟨c, n⟩ := p
    have hc : (0 : ℚ) ≤ c := hcost (c, n) (List.mem_cons_self _ _)
    have hstate := singleBucketScript_state_bounds capacity rate c n stored hcap hc hst
    simp only [runScript, List.mem_cons] at hr
    rcases hr with rfl | hr
    · refine ⟨hstate, ?_, ?_⟩
      · rw [singleBucketScript_remaining_eq]
        exact Int.le_floor.mpr (by exact_mod_cast hstate.1)
      · rw [singleBucketScript_remaining_eq]
        exact le_trans (Int.floor_le _) hstate.2
    · exact ih (some (singleBucketScript capacity rate c n stored).newState)
        (fun q hq => hcost q (List.mem_cons_of_mem _ hq))
        (fun st hsteq => by cases hsteq; exact hstate) r hr

/-- C3: starting from an absent bucket with positive capacity and rate
and non-negative per-step costs, every script execution in the sequence
keeps the stored tokens in `[0, C]` and returns a remainder in
`[0, C]`. -/
theorem singleBucket_sequence_token_bounds (capacity rate : ℚ)
    (hcap : 0 < capacity) (_hrate : 0 < rate) (steps : List (ℚ × ℤ))
    (hcost : ∀ p ∈ steps, 0 ≤ p.1) :
    ∀ r ∈ runScript capacity rate steps none,
      (0 ≤ r.newState.tokens ∧ r.newState.tokens ≤ capacity) ∧
      (0 ≤ r.remaining ∧ (r.remaining : ℚ) ≤ capacity) :=
  runScript_mem_bounds capacity rate (le_of_lt hcap) steps none hcost
    (fun st h => by cases h)

/-- Witness for C3: the run `[(cost 10, t=0), (cost 10, t=0)]` on an
absent bucket with capacity 100, rate 10; its first execution is in the
run, so its remainder lies in `[0, 100]`. -/
theorem singleBucket_sequence_token_bounds_witness :
    ((0 : ℚ) < 100 ∧ (0 : ℚ) < 10 ∧
      (∀ p ∈ [((10 : ℚ), (0 : ℤ)), ((10 : ℚ), (0 : ℤ))], 0 ≤ p.1)) ∧
    (0 ≤ (singleBucketScript 100 10 10 0 none).remaining ∧
      ((singleBucketScript 100 10 10 0 none).remaining : ℚ) ≤ 100) := by
  have hcost : ∀ p ∈ [((10 : ℚ), (0 : ℤ)), ((10 : ℚ), (0 : ℤ))], 0 ≤ p.1 := by
    intro p hp
    simp only [List.mem_cons, List.mem_singleton] at hp
    rcases hp with rfl | rfl | h
    · norm_num
    · norm_num
    · cases h
  have h := singleBucket_sequence_token_bounds 100 10 (by norm_num) (by norm_num)
    [((10 : ℚ), (0 : ℤ)), ((10 : ℚ), (0 : ℤ))] hcost
    (singleBucketScript 100 10 10 0 none)
    (by simp [runScript])
  exact ⟨⟨by norm_num, by norm_num, hcost⟩, h.2⟩

/-! ### Claim theorems about the storage adapter -/

/-- C4 (refuting the stated equality of cold- and warm-cache outcomes):
on a cold script cache `ExecuteScript` does reload once, update the
cached digest and retry once, and the retry succeeds — but the call
returns the retried result together with the ORIGINAL NOSCRIPT error,
because the retry's error lands in a variable shadowed inside the `if`
block.  A warm-cache call with the same reply returns no error, so the
cold- and warm-cache `(result, error)` pairs differ. -/
theorem executeScript_cold_cache_keeps_noscript_error :
    (ExecuteScript coldCacheClient ⟨"sha-old", "src"⟩).result = some [1, 90] ∧
    (ExecuteScript coldCacheClient ⟨"sha-old", "src"⟩).cacheSha = "sha-new" ∧
    (ExecuteScript coldCacheClient ⟨"sha-old", "src"⟩).err = some RedisErr.noscript ∧
    (ExecuteScript coldCacheClient ⟨"sha-new", "src"⟩).err = none := by
  refine ⟨rfl, rfl, rfl, rfl⟩

/-- C5 (refuting the stated error propagation): when the store call
fails and `ExecuteScript` hands back a nil result with an error, both
`AtomicTokenBucket` and `AtomicDualBucket` hit the type assertion
`result.([]interface\x7b\x7d)` before any error check and panic instead of
returning the error. -/
theorem atomicBuckets_panic_on_store_failure :
    AtomicTokenBucket failingClient ⟨"sha1", "src"⟩ =
      .error GoPanic.nilInterfaceConversion ∧
    AtomicDualBucket failingClient ⟨"sha1", "src"⟩ =
      .error GoPanic.nilInterfaceConversion ∧
    (ExecuteScript failingClient ⟨"sha1", "src"⟩).err = some RedisErr.connFailure := by
  refine ⟨rfl, rfl, rfl⟩

/-! ### Claim theorems about the rule catalog -/

/-- If the tier loop reports no error, every tier is positive. -/
lemma validateTiers_eq_none (l : List (String × TierConfig)) :
    validateTiers l = none → ∀ p ∈ l, 0 < p.2.capacity ∧ 0 < p.2.refillRate := by
  induction l with
  | nil =>
    intro _ p hp
    cases hp
  | cons q rest ih =>
    intro h p hp
    obtain ⟨name, tier⟩ := q
    simp only [validateTiers] at h
    split_ifs at h with h1 h2
    rcases List.mem_cons.mp hp with rfl | hmem
    · exact ⟨lt_of_not_le h1, lt_of_not_le h2⟩
    · exact ih h p hmem

/-- If the endpoint loop reports no error, every endpoint has a known
rule and positive numeric fields. -/
lemma validateEndpoints_eq_none (l : List (String × EndpointConfig)) :
    validateEndpoints l = none → ∀ p ∈ l, validRule p.2.rule = true ∧
      0 < p.2.cost ∧ 0 < p.2.globalCapacity ∧ 0 < p.2.globalRefillRate := by
  induction l with
  | nil =>
    intro _ p hp
    cases hp
  | cons q rest ih =>
    intro h p hp
    obtain ⟨path, ep⟩ := q
    simp only [validateEndpoints] at h
    split_ifs at h with h1 h2 h3 h4
    rcases List.mem_cons.mp hp with rfl | hmem
    · exact ⟨by simpa using h1, lt_of_not_le h2, lt_of_not_le h3, lt_of_not_le h4⟩
    · exact ih h p hmem

/-- C6 counterexample: a catalog whose `free` tier has capacity 0 is
loaded successfully by the startup path (`LoadRuleSet`, the only check
`main` performs), so the load does NOT fail on this invalid document. -/
theorem loadRuleSet_accepts_invalid_catalog :
    LoadRuleSet invalidCatalog = Except.ok invalidCatalog ∧
    (CheckHandler invalidCatalog (constDual true 0 990 none) (constSingle true 990 none)
        ⟨"user123", "/api/test", "free", ""⟩).2 ≠ none := by
  refine ⟨rfl, ?_⟩
  intro h
  simp [CheckHandler, invalidCatalog, List.lookup, constDual, finishDecision] at h

/-- C6 as amended: `ValidateRuleSet` rejects every catalog with a
non-positive tier/endpoint/IP numeric field or an unknown endpoint
rule, but the load performed at service startup does no validation and
returns the invalid catalog successfully. -/
theorem validateRuleSet_rejects_but_startup_load_accepts (rs : RuleSet)
    (hbad : hasInvalidEntry rs) :
    (ValidateRuleSet rs).isSome = true ∧ LoadRuleSet rs = Except.ok rs := by
  refine ⟨?_, rfl⟩
  cases hv : ValidateRuleSet rs with
  | some e => rfl
  | none =>
    exfalso
    unfold ValidateRuleSet at hv
    cases ht : validateTiers rs.tiers with
    | some e =>
      rw [ht] at hv
      simp at hv
    | none =>
      rw [ht] at hv
      cases he : validateEndpoints rs.endpoints with
      | some e =>
        rw [he] at hv
        simp at hv
      | none =>
        rw [he] at hv
        split_ifs at hv with hip1 hip2
        rcases hbad with htier | hep | hips
        · obtain ⟨p, hp, hbadp⟩ := htier
          have hpos := validateTiers_eq_none rs.tiers ht p hp
          rcases hbadp with h | h
          · omega
          · omega
        · obtain ⟨p, hp, hbadp⟩ := hep
          have hpos := validateEndpoints_eq_none rs.endpoints he p hp
          rcases hbadp with h | h | h | h
          · rw [hpos.1] at h
            cases h
          · omega
          · omega
          · omega
        · rcases hips with h | h
          · omega
          · omega

/-- Witness for the amended C6 at the concrete invalid catalog. -/
theorem validateRuleSet_rejects_but_startup_load_accepts_witness :
    hasInvalidEntry invalidCatalog ∧
    ((ValidateRuleSet invalidCatalog).isSome = true ∧
      LoadRuleSet invalidCatalog = Except.ok invalidCatalog) :=
  have hbad : hasInvalidEntry invalidCatalog :=
    Or.inl ⟨("free", ⟨0, 10⟩), by simp [invalidCatalog], Or.inl (by norm_num)⟩
  ⟨hbad, validateRuleSet_rejects_but_startup_load_accepts invalidCatalog hbad⟩

/-! ### Claim theorems about the dispatch layer -/

/-- C8: for a `tiers+endpoints` endpoint with a defined tier, the
handler composes `user:{key}:{endpoint}:{tier}` and `global:{endpoint}`
and calls the dual-bucket decision with
`(userKey, globalKey, globalCap, globalRate, tier.cap, tier.rate, cost,
3600 s)`; at the store both keys carry the `rate_limit:bucket:`
prefix. -/
theorem checkHandler_tier_dispatch_args (rules : RuleSet)
    (dualBucket : String → String → ℤ → ℤ → ℤ → ℤ → ℤ → ℤ → Bool × ℤ × ℤ × Option RedisErr)
    (singleBucket : String → ℤ → ℤ → ℤ → ℤ → Bool × ℤ × Option RedisErr)
    (req : CheckRequest) (ep : EndpointConfig) (tier : TierConfig)
    (hep : rules.endpoints.lookup req.endpoint = some ep)
    (hrule : ep.rule = "tiers+endpoints")
    (htier : rules.tiers.lookup req.userTier = some tier) :
    (CheckHandler rules dualBucket singleBucket req).2 =
      some (.dual ("user:" ++ req.key ++ ":" ++ req.endpoint ++ ":" ++ req.userTier)
        ("global:" ++ req.endpoint) ep.globalCapacity ep.globalRefillRate
        tier.capacity tier.refillRate ep.cost 3600) ∧
    atomicDualBucketKeys ("user:" ++ req.key ++ ":" ++ req.endpoint ++ ":" ++ req.userTier)
        ("global:" ++ req.endpoint) =
      ["rate_limit:bucket:" ++ ("user:" ++ req.key ++ ":" ++ req.endpoint ++ ":" ++ req.userTier),
       "rate_limit:bucket:" ++ ("global:" ++ req.endpoint)] := by
  constructor
  · simp [CheckHandler, hep, hrule, htier]
  · rfl

/-- Witness for C8 at the spec's literal policy: tier `free`, endpoint
`/api/test`, caller `user123`. -/
theorem checkHandler_tier_dispatch_args_witness :
    (specCatalog.endpoints.lookup "/api/test" = some ⟨"tiers+endpoints", 10, 1000, 100⟩ ∧
     specCatalog.tiers.lookup "free" = some ⟨100, 10⟩) ∧
    (CheckHandler specCatalog (constDual true 90 990 none) (constSingle true 990 none)
      ⟨"user123", "/api/test", "free", ""⟩).2 =
      some (.dual ("user:" ++ "user123" ++ ":" ++ "/api/test" ++ ":" ++ "free")
        ("global:" ++ "/api/test") 1000 100 100 10 10 3600) :=
  ⟨⟨rfl, rfl⟩,
    (checkHandler_tier_dispatch_args specCatalog (constDual true 90 990 none)
      (constSingle true 990 none) ⟨"user123", "/api/test", "free", ""⟩
      ⟨"tiers+endpoints", 10, 1000, 100⟩ ⟨100, 10⟩ rfl rfl rfl).1⟩

/-- C7: the response-status mapping of the handler.  Unknown endpoint,
unknown/missing tier on a tiered endpoint (with the catalog's tier
names enumerated in the payload) and missing IP on an IP-scoped
endpoint give a 400 client error without a store call; when a store
call is made, a storage error gives 500, an allowed decision 200 and a
denied decision 429. -/
theorem checkHandler_status_mapping (rules : RuleSet) (req : CheckRequest)
    (a : Bool) (u g : ℤ) (e : Option RedisErr) :
    (rules.endpoints.lookup req.endpoint = none →
      (CheckHandler rules (constDual a u g e) (constSingle a g e) req).1 =
        ⟨400, .errMsg "unknown endpoint"⟩) ∧
    (∀ ep, rules.endpoints.lookup req.endpoint = some ep →
      ep.rule = "tiers+endpoints" → rules.tiers.lookup req.userTier = none →
      (CheckHandler rules (constDual a u g e) (constSingle a g e) req).1 =
        ⟨400, .errTier "invalid user_tier" req.userTier (getValidTiers rules.tiers)⟩) ∧
    (∀ ep, rules.endpoints.lookup req.endpoint = some ep →
      ep.rule = "IP+endpoints" → req.ipAddress = "" →
      (CheckHandler rules (constDual a u g e) (constSingle a g e) req).1 =
        ⟨400, .errMsg "ip_address required for this endpoint"⟩) ∧
    ((CheckHandler rules (constDual a u g e) (constSingle a g e) req).2 ≠ none →
      e ≠ none →
      (CheckHandler rules (constDual a u g e) (constSingle a g e) req).1 =
        ⟨500, .errMsg "Rate limiter unavailable"⟩) ∧
    ((CheckHandler rules (constDual a u g e) (constSingle a g e) req).2 ≠ none →
      e = none → a = true →
      (CheckHandler rules (constDual a u g e) (constSingle a g e) req).1.status = 200) ∧
    ((CheckHandler rules (constDual a u g e) (constSingle a g e) req).2 ≠ none →
      e = none → a = false →
      (CheckHandler rules (constDual a u g e) (constSingle a g e) req).1.status = 429) := by
  by_cases hlk : ∃ ep0, rules.endpoints.lookup req.endpoint = some ep0
  case neg =>
    have hn : rules.endpoints.lookup req.endpoint = none := by
      cases h0 : rules.endpoints.lookup req.endpoint with
      | none => rfl
      | some x => exact absurd ⟨x, h0⟩ hlk
    have hout : CheckHandler rules (constDual a u g e) (constSingle a g e) req =
        (⟨400, .errMsg "unknown endpoint"⟩, none) := by
      simp [CheckHandler, hn]
    refine ⟨fun _ => by rw [hout], ?_, ?_, ?_, ?_, ?_⟩
    · intro ep hep
      rw [hn] at hep
      cases hep
    · intro ep hep
      rw [hn] at hep
      cases hep
    · intro hcall
      rw [hout] at hcall
      simp at hcall
    · intro hcall
      rw [hout] at hcall
      simp at hcall
    · intro hcall
      rw [hout] at hcall
      simp at hcall
  case pos =>
    obtain ⟨ep, hlk⟩ := hlk
    have hnone : rules.endpoints.lookup req.endpoint ≠ none := by
      rw [hlk]
      simp
    by_cases h1 : ep.rule = "tiers+endpoints"
    · cases htier : rules.tiers.lookup req.userTier with
      | none =>
        have hout : CheckHandler rules (constDual a u g e) (constSingle a g e) req =
            (⟨400, .errTier "invalid user_tier" req.userTier (getValidTiers rules.tiers)⟩,
              none) := by
          simp [CheckHandler, hlk, h1, htier]
        refine ⟨fun h => absurd h hnone, fun ep2 hep2 _ _ => by rw [hout], ?_, ?_, ?_, ?_⟩
        · intro ep2 hep2 hr2 _
          rw [hlk] at hep2
          injection hep2 with hq
          subst hq
          rw [h1] at hr2
          simp at hr2
        · intro hcall
          rw [hout] at hcall
          simp at hcall
        · intro hcall
          rw [hout] at hcall
          simp at hcall
        · intro hcall
          rw [hout] at hcall
          simp at hcall
      | some tier =>
        have hout : (CheckHandler rules (constDual a u g e) (constSingle a g e) req).1 =
            finishDecision a u g e := by
          simp [CheckHandler, hlk, h1, htier, constDual]
        refine ⟨fun h => absurd h hnone, ?_, ?_, ?_, ?_, ?_⟩
        · intro ep2 hep2 _ htier2
          cases htier2
        · intro ep2 hep2 hr2 _
          rw [hlk] at hep2
          injection hep2 with hq
          subst hq
          rw [h1] at hr2
          simp at hr2
        · intro _ he
          rw [hout]
          cases e with
          | none => exact absurd rfl he
          | some e0 => rfl
        · intro _ he ha
          rw [hout, he, ha]
          rfl
        · intro _ he ha
          rw [hout, he, ha]
          rfl
    · by_cases h2 : ep.rule = "IP+endpoints"
      · by_cases hip : req.ipAddress = ""
        · have hout : CheckHandler rules (constDual a u g e) (constSingle a g e) req =
              (⟨400, .errMsg "ip_address required for this endpoint"⟩, none) := by
            simp [CheckHandler, hlk, h1, h2, hip]
          refine ⟨fun h => absurd h hnone, ?_, fun ep2 hep2 _ _ => by rw [hout], ?_, ?_, ?_⟩
          · intro ep2 hep2 hr2 _
            rw [hlk] at hep2
            injection hep2 with hq
            subst hq
            exact absurd hr2 h1
          · intro hcall
            rw [hout] at hcall
            simp at hcall
          · intro hcall
            rw [hout] at hcall
            simp at hcall
          · intro hcall
            rw [hout] at hcall
            simp at hcall
        · have hout : (CheckHandler rules (constDual a u g e) (constSingle a g e) req).1 =
              finishDecision a 0 g e := by
            simp [CheckHandler, hlk, h1, h2, hip, constDual]
          refine ⟨fun h => absurd h hnone, ?_, ?_, ?_, ?_, ?_⟩
          · intro ep2 hep2 hr2 _
            rw [hlk] at hep2
            injection hep2 with hq
            subst hq
            exact absurd hr2 h1
          · intro ep2 hep2 _ hip2
            exact absurd hip2 hip
          · intro _ he
            rw [hout]
            cases e with
            | none => exact absurd rfl he
            | some e0 => rfl
          · intro _ he ha
            rw [hout, he, ha]
            rfl
          · intro _ he ha
            rw [hout, he, ha]
            rfl
      · by_cases h3 : ep.rule = "endpoint"
        · have hout : (CheckHandler rules (constDual a u g e) (constSingle a g e) req).1 =
              finishDecision a 0 g e := by
            simp [CheckHandler, hlk, h1, h2, h3, constSingle]
          refine ⟨fun h => absurd h hnone, ?_, ?_, ?_, ?_, ?_⟩
          · intro ep2 hep2 hr2 _
            rw [hlk] at hep2
            injection hep2 with hq
            subst hq
            exact absurd hr2 h1
          · intro ep2 hep2 hr2 _
            rw [hlk] at hep2
            injection hep2 with hq
            subst hq
            exact absurd hr2 h2
          · intro _ he
            rw [hout]
            cases e with
            | none => exact absurd rfl he
            | some e0 => rfl
          · intro _ he ha
            rw [hout, he, ha]
            rfl
          · intro _ he ha
            rw [hout, he, ha]
            rfl
        · have hout : CheckHandler rules (constDual a u g e) (constSingle a g e) req =
              (⟨429, .body ⟨false, 0, 0⟩⟩, none) := by
            simp [CheckHandler, hlk, h1, h2, h3, finishDecision]
          refine ⟨fun h => absurd h hnone, ?_, ?_, ?_, ?_, ?_⟩
          · intro ep2 hep2 hr2 _
            rw [hlk] at hep2
            injection hep2 with hq
            subst hq
            exact absurd hr2 h1
          · intro ep2 hep2 hr2 _
            rw [hlk] at hep2
            injection hep2 with hq
            subst hq
            exact absurd hr2 h2
          · intro hcall
            rw [hout] at hcall
            simp at hcall
          · intro hcall
            rw [hout] at hcall
            simp at hcall
          · intro hcall
            rw [hout] at hcall
            simp at hcall

/-- Witness for C7: at the spec's literal policy, a denied decision
(`allowed = false`, no storage error) yields status 429. -/
theorem checkHandler_status_mapping_witness :
    (CheckHandler specCatalog (constDual false 0 990 none) (constSingle false 990 none)
      ⟨"user123", "/api/test", "free", ""⟩).2 ≠ none ∧
    (CheckHandler specCatalog (constDual false 0 990 none) (constSingle false 990 none)
      ⟨"user123", "/api/test", "free", ""⟩).1.status = 429 := by
  have hcall : (CheckHandler specCatalog (constDual false 0 990 none)
      (constSingle false 990 none) ⟨"user123", "/api/test", "free", ""⟩).2 ≠ none := by
    intro h
    simp [CheckHandler, specCatalog, List.lookup, constDual, finishDecision] at h
  exact ⟨hcall,
    (checkHandler_status_mapping specCatalog ⟨"user123", "/api/test", "free", ""⟩
      false 0 990 none).2.2.2.2.2 hcall rfl rfl⟩

/-- C10: when the endpoint's rule string is outside the three known
values, no switch case matches: the handler makes no storage call and
answers 429 with `allowed = false` and both remainders 0. -/
theorem checkHandler_unknown_rule_denies (rules : RuleSet)
    (dualBucket : String → String → ℤ → ℤ → ℤ → ℤ → ℤ → ℤ → Bool × ℤ × ℤ × Option RedisErr)
    (singleBucket : String → ℤ → ℤ → ℤ → ℤ → Bool × ℤ × Option RedisErr)
    (req : CheckRequest) (ep : EndpointConfig)
    (hep : rules.endpoints.lookup req.endpoint = some ep)
    (hrule : validRule ep.rule = false) :
    CheckHandler rules dualBucket singleBucket req =
      ({ status := 429, payload := .body ⟨false, 0, 0⟩ }, none) := by
  have hsplit : ¬ ep.rule = "tiers+endpoints" ∧ ¬ ep.rule = "IP+endpoints" ∧
      ¬ ep.rule = "endpoint" := by
    simp only [validRule, Bool.or_eq_false_iff, beq_eq_false_iff_ne, ne_eq] at hrule
    exact ⟨hrule.1.1, hrule.1.2, hrule.2⟩
  simp [CheckHandler, hep, hsplit.1, hsplit.2.1, hsplit.2.2, finishDecision]

/-- Witness for C10: a catalog whose endpoint carries the unknown rule
`bogus`. -/
theorem checkHandler_unknown_rule_denies_witness :
    (bogusCatalog.endpoints.lookup "/api/test" = some ⟨"bogus", 10, 1000, 100⟩ ∧
      validRule "bogus" = false) ∧
    CheckHandler bogusCatalog (constDual true 90 990 none) (constSingle true 990 none)
      ⟨"user123", "/api/test", "free", ""⟩ =
      ({ status := 429, payload := .body ⟨false, 0, 0⟩ }, none) :=
  ⟨⟨rfl, rfl⟩,
    checkHandler_unknown_rule_denies bogusCatalog (constDual true 90 990 none)
      (constSingle true 990 none) ⟨"user123", "/api/test", "free", ""⟩
      ⟨"bogus", 10, 1000, 100⟩ rfl rfl⟩

end RateLimiter
